import Mathlib

/-!
# Verification of the job-platform response-extraction and search pipeline

Shallow embedding of the JSON-recovery, job-normalization, metrics and
configuration-store logic of `src/modules/job_discovery.py` and
`src/modules/interview_prep.py`, with theorems settling the frozen claims
about that code.

Conventions:
* Python dicts are association lists with Python-dict insertion semantics
  (`insertKV`: first occurrence keeps its position, a duplicate key updates
  the value in place).
* Python floats are modelled as `Rat` (exact arithmetic; the claims compare
  values far apart, so no float-tolerance subtlety is lost).
* A Python function that can raise is modelled as `Option`-valued; `none`
  means an exception escaped to the nearest handler shown in the source.
* Wall-clock time, UUIDs and timestamps are abstracted: the elapsed duration
  of a request is an explicit parameter, timestamps are dropped.
-/

namespace JobPlatform

/-- A JSON value as produced by `json.loads`.  Numbers are kept exactly as
`mantissa × 10 ^ exponent` (the claims never depend on float rounding). -/
inductive Json where
  | null : Json
  | bool (b : Bool) : Json
  | num (mantissa : Int) (exponent : Int) : Json
  | str (s : String) : Json
  | arr (elems : List Json) : Json
  | obj (members : List (String × Json)) : Json
deriving Repr

mutual
def Json.beq : Json → Json → Bool
  | .null, .null => true
  | .bool a, .bool b => a = b
  | .num m1 e1, .num m2 e2 => m1 = m2 && e1 = e2
  | .str a, .str b => a = b
  | .arr xs, .arr ys => Json.beqList xs ys
  | .obj xs, .obj ys => Json.beqMembers xs ys
  | _, _ => false
def Json.beqList : List Json → List Json → Bool
  | [], [] => true
  | x :: xs, y :: ys => Json.beq x y && Json.beqList xs ys
  | _, _ => false
def Json.beqMembers : List (String × Json) → List (String × Json) → Bool
  | [], [] => true
  | (k1, v1) :: xs, (k2, v2) :: ys => k1 = k2 && Json.beq v1 v2 && Json.beqMembers xs ys
  | _, _ => false
end

/-- Structural equality of parsed values (the Python `==` used by list
membership tests on parsed JSON). -/
instance : BEq Json := ⟨Json.beq⟩

/-- Python-dict lookup on an association list (`d.get(k)` / `d[k]`). -/
def lookupKV {α : Type} : List (String × α) → String → Option α
  | [], _ => none
  | (k0, v0) :: rest, k => if k0 = k then some v0 else lookupKV rest k

/-- Python-dict insertion: a duplicate key updates the value in place,
a fresh key is appended (insertion order preserved). -/
def insertKV {α : Type} : List (String × α) → String → α → List (String × α)
  | [], k, v => [(k, v)]
  | (k0, v0) :: rest, k, v =>
      if k0 = k then (k0, v) :: rest else (k0, v0) :: insertKV rest k v

/-! ## `json.loads` -/

/-- JSON inter-token whitespace accepted by `json.loads`. -/
def jsonWsChar (c : Char) : Bool := c = ' ' || c = '\t' || c = '\n' || c = '\r'

def skipJsonWs : List Char → List Char
  | c :: cs => if jsonWsChar c then skipJsonWs cs else c :: cs
  | [] => []

def isDigitChar (c : Char) : Bool := '0' ≤ c && c ≤ '9'

def takeDigits : List Char → List Char × List Char
  | c :: cs =>
      if isDigitChar c then
        let (ds, r) := takeDigits cs
        (c :: ds, r)
      else ([], c :: cs)
  | [] => ([], [])

def digitsToNat (ds : List Char) : Nat :=
  ds.foldl (fun acc c => acc * 10 + (c.toNat - '0'.toNat)) 0

def hexVal (c : Char) : Option Nat :=
  if '0' ≤ c ∧ c ≤ '9' then some (c.toNat - '0'.toNat)
  else if 'a' ≤ c ∧ c ≤ 'f' then some (c.toNat - 'a'.toNat + 10)
  else if 'A' ≤ c ∧ c ≤ 'F' then some (c.toNat - 'A'.toNat + 10)
  else none

/-- Body of a JSON string literal, after the opening quote.  Returns the
decoded characters and the remaining input after the closing quote.  Raw
control characters are rejected, escapes follow `json.loads` (strict). -/
def parseJStringBody : Nat → List Char → Option (List Char × List Char)
  | 0, _ => none
  | _, [] => none
  | Nat.succ fuel, c :: cs =>
      if c = '"' then some ([], cs)
      else if c = '\\' then
        match cs with
        | [] => none
        | e :: cs2 =>
            let cont := fun (ch : Char) (rest : List Char) =>
              (parseJStringBody fuel rest).map (fun p => (ch :: p.1, p.2))
            if e = '"' then cont '"' cs2
            else if e = '\\' then cont '\\' cs2
            else if e = '/' then cont '/' cs2
            else if e = 'b' then cont (Char.ofNat 8) cs2
            else if e = 'f' then cont (Char.ofNat 12) cs2
            else if e = 'n' then cont '\n' cs2
            else if e = 'r' then cont '\r' cs2
            else if e = 't' then cont '\t' cs2
            else if e = 'u' then
              match cs2 with
              | h1 :: h2 :: h3 :: h4 :: cs3 =>
                  match hexVal h1, hexVal h2, hexVal h3, hexVal h4 with
                  | some a, some b, some d, some e4 =>
                      cont (Char.ofNat (((a * 16 + b) * 16 + d) * 16 + e4)) cs3
                  | _, _, _, _ => none
              | _ => none
            else none
      else if c.toNat < 32 then none
      else (parseJStringBody fuel cs).map (fun p => (c :: p.1, p.2))

/-- A JSON number per the `json` module's grammar
(`-? (0 | [1-9][0-9]*) (\.[0-9]+)? ([eE][-+]?[0-9]+)?`, longest match). -/
def parseJNumber (cs : List Char) : Option (Json × List Char) :=
  let signed := match cs with
    | '-' :: r => (true, r)
    | _ => (false, cs)
  match signed.2 with
  | [] => none
  | d :: _ =>
      if ¬ isDigitChar d then none
      else
        let (ids, cs2) := takeDigits signed.2
        if ids.length > 1 ∧ ids.headD 'x' = '0' then none
        else
          let intMant : Int := (digitsToNat ids : Int)
          let mant0 : Int := if signed.1 then -intMant else intMant
          -- optional fraction: only consumed when `.` is followed by digits
          let fracStep : Int × Int × List Char :=
            match cs2 with
            | '.' :: cs3 =>
                match takeDigits cs3 with
                | ([], _) => (mant0, 0, cs2)
                | (fds, cs4) =>
                    let fmant := mant0 * ((10 : Int) ^ fds.length) +
                      (if signed.1 then -(digitsToNat fds : Int) else (digitsToNat fds : Int))
                    (fmant, -(fds.length : Int), cs4)
            | _ => (mant0, 0, cs2)
          -- optional exponent: only consumed when well formed
          let expStep : Int × Int × List Char :=
            match fracStep.2.2 with
            | e :: cs5 =>
                if e = 'e' ∨ e = 'E' then
                  let esigned := match cs5 with
                    | '+' :: r => (false, r)
                    | '-' :: r => (true, r)
                    | _ => (false, cs5)
                  match takeDigits esigned.2 with
                  | ([], _) => (fracStep.1, fracStep.2.1, fracStep.2.2)
                  | (eds, cs6) =>
                      let ev : Int := (digitsToNat eds : Int)
                      (fracStep.1, fracStep.2.1 + (if esigned.1 then -ev else ev), cs6)
                else (fracStep.1, fracStep.2.1, fracStep.2.2)
            | [] => (fracStep.1, fracStep.2.1, fracStep.2.2)
          some (Json.num expStep.1 expStep.2.1, expStep.2.2)

mutual
/-- One JSON value (leading whitespace allowed), `json.loads` grammar. -/
def parseJValue : Nat → List Char → Option (Json × List Char)
  | 0, _ => none
  | Nat.succ fuel, cs0 =>
      match skipJsonWs cs0 with
      | [] => none
      | c :: cs =>
          if c = '{' then
            match skipJsonWs cs with
            | '}' :: rest => some (Json.obj [], rest)
            | cs2 => parseJMembers fuel cs2 []
          else if c = '[' then
            match skipJsonWs cs with
            | ']' :: rest => some (Json.arr [], rest)
            | cs2 => parseJElements fuel cs2 []
          else if c = '"' then
            (parseJStringBody fuel cs).map (fun p => (Json.str (String.mk p.1), p.2))
          else if c = 't' then
            match cs with
            | 'r' :: 'u' :: 'e' :: rest => some (Json.bool true, rest)
            | _ => none
          else if c = 'f' then
            match cs with
            | 'a' :: 'l' :: 's' :: 'e' :: rest => some (Json.bool false, rest)
            | _ => none
          else if c = 'n' then
            match cs with
            | 'u' :: 'l' :: 'l' :: rest => some (Json.null, rest)
            | _ => none
          else parseJNumber (c :: cs)

def parseJElements : Nat → List Char → List Json → Option (Json × List Char)
  | 0, _, _ => none
  | Nat.succ fuel, cs, acc =>
      match parseJValue fuel cs with
      | none => none
      | some (v, rest) =>
          match skipJsonWs rest with
          | ',' :: rest2 => parseJElements fuel rest2 (acc ++ [v])
          | ']' :: rest2 => some (Json.arr (acc ++ [v]), rest2)
          | _ => none

def parseJMembers : Nat → List Char → List (String × Json) → Option (Json × List Char)
  | 0, _, _ => none
  | Nat.succ fuel, cs, acc =>
      match skipJsonWs cs with
      | '"' :: cs2 =>
          match parseJStringBody fuel cs2 with
          | none => none
          | some (kchars, rest) =>
              match skipJsonWs rest with
              | ':' :: rest2 =>
                  match parseJValue fuel rest2 with
                  | none => none
                  | some (v, rest3) =>
                      let acc2 := insertKV acc (String.mk kchars) v
                      match skipJsonWs rest3 with
                      | ',' :: rest4 => parseJMembers fuel rest4 acc2
                      | '}' :: rest4 => some (Json.obj acc2, rest4)
                      | _ => none
              | _ => none
      | _ => none
end

/-- `json.loads`: parse the whole string as one JSON document; trailing
non-whitespace is an error ("Extra data"). -/
def json_loads (s : String) : Option Json :=
  match parseJValue (s.toList.length + 1) s.toList with
  | some (v, rest) => if skipJsonWs rest = [] then some v else none
  | none => none

/-! ## The `re` search steps of the extraction cascades

Each Python regex used by the source is embedded as a direct scanning
function with `re.search` semantics: leftmost matching start position wins;
at a fixed start, a lazy `.*?` takes the shortest completion and a greedy
`.*` the longest. -/

/-- Python `\s` (ASCII part: the inputs under test contain no exotic
unicode whitespace). -/
def reWsChar (c : Char) : Bool :=
  c = ' ' || c = '\t' || c = '\n' || c = '\r' || c = Char.ofNat 11 || c = Char.ofNat 12

/-- Split a maximal run of `\s` characters off the front. -/
def takeReWs : List Char → List Char × List Char
  | [] => ([], [])
  | c :: cs =>
      if reWsChar c then
        let (w, r) := takeReWs cs
        (c :: w, r)
      else ([], c :: cs)

/-- `search_job_openings`, line 398: tail of `\[\s*{.*?}\s*\]` after the
opening `[ \s* {` — lazily find the first `}` followed by `\s*]`, returning
the consumed characters through that `]`. -/
def jobArrClose : List Char → Option (List Char)
  | [] => none
  | c :: cs =>
      if c = '}' then
        match takeReWs cs with
        | (w, ']' :: _) => some ('}' :: (w ++ [']']))
        | _ => (jobArrClose cs).map (fun m => '}' :: m)
      else (jobArrClose cs).map (fun m => c :: m)

/-- Try `\[\s*{.*?}\s*\]` (DOTALL) anchored at the current position. -/
def matchJobArrayAt : List Char → Option (List Char)
  | '[' :: cs =>
      let (w, cs2) := takeReWs cs
      match cs2 with
      | '{' :: cs3 => (jobArrClose cs3).map (fun m => '[' :: (w ++ '{' :: m))
      | _ => none
  | _ => none

/-- `re.search(r'\[\s*{.*?}\s*\]', content, re.DOTALL)`: leftmost match. -/
def searchJobArray : List Char → Option (List Char)
  | [] => none
  | c :: cs =>
      match matchJobArrayAt (c :: cs) with
      | some m => some m
      | none => searchJobArray cs

/-- `_parse_company_response`, line 660: tail of `\[\s*\{.*\}\s*\]` after
`[ \s* {` — greedy `.*`: the last `}` followed by `\s*]` wins. -/
def companyArrClose : List Char → Option (List Char)
  | [] => none
  | c :: cs =>
      match (companyArrClose cs).map (fun m => c :: m) with
      | some m => some m
      | none =>
          if c = '}' then
            match takeReWs cs with
            | (w, ']' :: _) => some ('}' :: (w ++ [']']))
            | _ => none
          else none

def matchCompanyArrayAt : List Char → Option (List Char)
  | '[' :: cs =>
      let (w, cs2) := takeReWs cs
      match cs2 with
      | '{' :: cs3 => (companyArrClose cs3).map (fun m => '[' :: (w ++ '{' :: m))
      | _ => none
  | _ => none

/-- `re.search(r'\[\s*\{.*\}\s*\]', content, re.DOTALL)`: leftmost match. -/
def searchCompanyArray : List Char → Option (List Char)
  | [] => none
  | c :: cs =>
      match matchCompanyArrayAt (c :: cs) with
      | some m => some m
      | none => searchCompanyArray cs

/-- Longest prefix of a brace-free run that ends with `}` (the greedy
`[^{]*\}` tail of `\{[^{]*\}`). -/
def lastCloseSplit : List Char → Option (List Char)
  | [] => none
  | c :: cs =>
      match (lastCloseSplit cs).map (fun m => c :: m) with
      | some m => some m
      | none => if c = '}' then some ['}'] else none

/-- `re.search(r'\{[^{]*\}', content, re.DOTALL)` anchored at the current
position: the run after `{` may not contain `{`, and the greedy star
backtracks to the last `}` inside it. -/
def matchCompanyObjAt : List Char → Option (List Char)
  | '{' :: cs =>
      (lastCloseSplit (cs.takeWhile (fun c => ¬ c = '{'))).map (fun m => '{' :: m)
  | _ => none

def searchCompanyObj : List Char → Option (List Char)
  | [] => none
  | c :: cs =>
      match matchCompanyObjAt (c :: cs) with
      | some m => some m
      | none => searchCompanyObj cs

/-- `interview_prep.extract_json`, line 208: tail of the fenced-block
pattern after the group's `{` — lazily the first `}` followed by
`` \s*``` `` closes the group. -/
def ipLazyClose : List Char → Option (List Char)
  | [] => none
  | c :: cs =>
      if c = '}' then
        match takeReWs cs with
        | (_, '`' :: '`' :: '`' :: _) => some ['}']
        | _ => (ipLazyClose cs).map (fun m => '}' :: m)
      else (ipLazyClose cs).map (fun m => c :: m)

/-- After the opening backticks (and optional `json` tag): `\s*` then the
captured group `({[\s\S]*?})` closed before `` \s*``` ``. -/
def ipCodeTail (cs : List Char) : Option (List Char) :=
  match takeReWs cs with
  | (_, '{' :: cs3) => (ipLazyClose cs3).map (fun m => '{' :: m)
  | _ => none

def matchIpCodeAt : List Char → Option (List Char)
  | '`' :: '`' :: '`' :: cs =>
      match cs with
      | 'j' :: 's' :: 'o' :: 'n' :: cs2 =>
          -- greedy `(?:json)?` with backtracking to the untagged form
          match ipCodeTail cs2 with
          | some g => some g
          | none => ipCodeTail cs
      | _ => ipCodeTail cs
  | _ => none

/-- ``re.search(r'```(?:json)?\s*({[\s\S]*?})\s*```', content)``:
leftmost match, returning the captured group. -/
def searchIpCode : List Char → Option (List Char)
  | [] => none
  | c :: cs =>
      match matchIpCodeAt (c :: cs) with
      | some m => some m
      | none => searchIpCode cs

/-- `(?:\s*$|\n)` after the group of the raw-object pattern: either only
whitespace remains (with `$` also matching before one trailing newline,
which that case subsumes), or the next character is a newline. -/
def ipRawEndOk (cs : List Char) : Bool :=
  cs.all reWsChar ||
    (match cs with
     | '\n' :: _ => true
     | _ => false)

def ipRawLazyClose : List Char → Option (List Char)
  | [] => none
  | c :: cs =>
      if c = '}' then
        if ipRawEndOk cs then some ['}']
        else (ipRawLazyClose cs).map (fun m => '}' :: m)
      else (ipRawLazyClose cs).map (fun m => c :: m)

def matchIpRawAt : List Char → Option (List Char)
  | '{' :: cs => (ipRawLazyClose cs).map (fun m => '{' :: m)
  | _ => none

/-- `re.search(r'({[\s\S]*?})(?:\s*$|\n)', content)`: leftmost match,
returning the captured group. -/
def searchIpRaw : List Char → Option (List Char)
  | [] => none
  | c :: cs =>
      match matchIpRawAt (c :: cs) with
      | some m => some m
      | none => searchIpRaw cs

/-! ## The three JSON-extraction steps -/

/-- `search_job_openings`, lines 392-407: parse the whole response as JSON,
else find a JSON array with the regex and parse that; any remaining failure
aborts the parse phase (the function returns `[]`). -/
def extract_jobs_json (content : String) : Option Json :=
  match json_loads content with
  | some v => some v
  | none =>
      match searchJobArray content.toList with
      | some m => json_loads (String.mk m)
      | none => none

/-- `_parse_company_response`, lines 649-675: whole-text parse, then the
array regex, then the single-object regex; each failed attempt falls
through to the next. -/
def companyObjAttempt (content : String) : Option Json :=
  match searchCompanyObj content.toList with
  | some m => json_loads (String.mk m)
  | none => none

def parse_company_content_core (content : String) : Option Json :=
  match json_loads content with
  | some v => some v
  | none =>
      match searchCompanyArray content.toList with
      | some m =>
          match json_loads (String.mk m) with
          | some v => some v
          | none => companyObjAttempt content
      | none => companyObjAttempt content

/-- `interview_prep.extract_json`, lines 206-223: fenced code block first,
then a raw object terminated by line end; the group is parsed with
`json.loads`; failure raises (modelled as `none`). -/
def extract_json (content : String) : Option Json :=
  match searchIpCode content.toList with
  | some g => json_loads (String.mk g)
  | none =>
      match searchIpRaw content.toList with
      | some g => json_loads (String.mk g)
      | none => none

/-! ## Python value helpers for normalization

`search_job_openings` manipulates parsed values with `in`, `.get`,
`.strip()`, `.lower()`.  These raise on the wrong Python type; a raised
exception is modelled as `none` and propagates to the handler shown in the
source. -/

def listStartsWith : List Char → List Char → Bool
  | _, [] => true
  | [], _ :: _ => false
  | c :: cs, p :: ps => (c = p) && listStartsWith cs ps

def listHasSubstr : List Char → List Char → Bool
  | [], p => p.isEmpty
  | c :: cs, p => listStartsWith (c :: cs) p || listHasSubstr cs p

/-- `s.startswith(p)`. -/
def pyStartswith (s p : String) : Bool := listStartsWith s.toList p.toList

/-- `s.strip()` (ASCII whitespace; the default Python strip set). -/
def pyStrip (s : String) : String :=
  String.mk (((s.toList.dropWhile reWsChar).reverse.dropWhile reWsChar).reverse)

/-- `s.lower()` (ASCII). -/
def pyLower (s : String) : String := String.mk (s.toList.map Char.toLower)

/-- Python `k in v` on a parsed JSON value: key test on a dict, membership
on a list, substring test on a string, `TypeError` otherwise. -/
def pyContainsKey (v : Json) (k : String) : Option Bool :=
  match v with
  | Json.obj f => some (lookupKV f k).isSome
  | Json.arr xs => some (xs.contains (Json.str k))
  | Json.str s => some (listHasSubstr s.toList k.toList)
  | _ => none

/-- `all(field in job for field in fields)` — short-circuits at the first
`False`, and raises if a test raises. -/
def pyAllContains (v : Json) : List String → Option Bool
  | [] => some true
  | k :: ks =>
      match pyContainsKey v k with
      | none => none
      | some b => if b then pyAllContains v ks else some false

/-- `v.get(k, dflt)` — `AttributeError` on a non-dict. -/
def pyGet (v : Json) (k : String) (dflt : Json) : Option Json :=
  match v with
  | Json.obj f => some ((lookupKV f k).getD dflt)
  | _ => none

/-- `.strip()` on a parsed value: only strings have it. -/
def pyStripJ : Json → Option String
  | Json.str s => some (pyStrip s)
  | _ => none

/-- `.lower()` on a parsed value: only strings have it. -/
def pyLowerJ : Json → Option String
  | Json.str s => some (pyLower s)
  | _ => none

/-! ## Job-listing normalization -/

/-- A normalized job listing as built by `search_job_openings` /
`_fallback_job_search`.  `metadata_config` stands for the `_metadata`
dict (present on primary-search listings only; its uuid/timestamp content
is abstracted to the configuration name recorded in it). -/
structure JobListing where
  title : String
  company : String
  location : String
  description : String
  requirements : List Json
  link : String
  posted_date : String
  salary : String
  metadata_config : Option String
deriving Repr

/-- `search_job_openings`, line 416. -/
def requiredJobFields : List String :=
  ["title", "company", "location", "description", "requirements", "link"]

/-- `search_job_openings`, line 423 (the placeholder blacklist, compared
against the lowercased company value). -/
def placeholderCompanies : List String := ["n/a", "unknown", "unknown company", ""]

/-- Lines 446-451: `requirements` is forced to a list — a string becomes a
one-element list, any other non-list becomes `[]`. -/
def normalizeReq : Json → List Json
  | Json.arr xs => xs
  | Json.str s => [Json.str s]
  | _ => []

/-- Lines 453-455: prepend `https://` when the link has no
`http://`/`https://` scheme. -/
def fixLink (link : String) : String :=
  if (pyStartswith link "http://" || pyStartswith link "https://") = false then
    "https://" ++ link
  else link

/-- Lines 433-455: build the normalized record from a candidate (the same
`job.get(...).strip()` defaulting is used by both search paths).  `none` =
a Python exception (a `.get` on a non-dict or a `.strip()`/type fix on a
non-string field). -/
def buildNormalizedRecord (metadataConfig : Option String) (j : Json) : Option JobListing := do
  let titleV ← pyGet j "title" (Json.str "Unknown Title")
  let title ← pyStripJ titleV
  let companyV ← pyGet j "company" (Json.str "Unknown Company")
  let company ← pyStripJ companyV
  let locationV ← pyGet j "location" (Json.str "Unknown Location")
  let location ← pyStripJ locationV
  let descriptionV ← pyGet j "description" (Json.str "No description available")
  let description ← pyStripJ descriptionV
  let reqsRaw ← pyGet j "requirements" (Json.arr [])
  let linkV ← pyGet j "link" (Json.str "https://www.linkedin.com/jobs/")
  let link ← pyStripJ linkV
  let postedV ← pyGet j "posted_date" (Json.str "Unknown")
  let posted ← pyStripJ postedV
  let salaryV ← pyGet j "salary" (Json.str "Not specified")
  let salary ← pyStripJ salaryV
  some
    { title := title, company := company, location := location,
      description := description, requirements := normalizeReq reqsRaw,
      link := fixLink link, posted_date := posted, salary := salary,
      metadata_config := metadataConfig }

/-- One iteration of the primary normalization loop (lines 414-458).
`none` = a Python exception escaped the loop; `some none` = the candidate
was skipped by `continue`; `some (some job)` = the candidate was kept. -/
def normalizePrimaryJob (configName : String) (j : Json) : Option (Option JobListing) :=
  -- skip jobs with missing required fields
  match pyAllContains j requiredJobFields with
  | none => none
  | some false => some none
  | some true =>
      -- skip jobs with placeholder company names
      match pyGet j "company" (Json.str "") with
      | none => none
      | some compVal =>
          match pyLowerJ compVal with
          | none => none
          | some compLower =>
              if placeholderCompanies.contains compLower then some none
              else
                match buildNormalizedRecord (some configName) j with
                | none => none
                | some job => some (some job)

/-- The primary normalization loop over all candidates; an exception
anywhere discards the whole batch (caught at line 493). -/
def normalizePrimaryJobs (configName : String) : List Json → Option (List JobListing)
  | [] => some []
  | j :: js => do
      let r ← normalizePrimaryJob configName j
      let rest ← normalizePrimaryJobs configName js
      match r with
      | none => some rest
      | some job => some (job :: rest)

/-- Lines 409-410 (and 554-555): a dict becomes a one-element list, any
other non-list becomes `[]`. -/
def coerceJobsList : Json → List Json
  | Json.arr xs => xs
  | Json.obj f => [Json.obj f]
  | _ => []

/-- One iteration of the fallback normalization loop (lines 559-583):
only `company` and `title` presence is required (short-circuit `and`),
and there is no placeholder check. -/
def normalizeFallbackJob (j : Json) : Option (Option JobListing) :=
  match pyContainsKey j "company" with
  | none => none
  | some false => some none
  | some true =>
      match pyContainsKey j "title" with
      | none => none
      | some false => some none
      | some true =>
          match buildNormalizedRecord none j with
          | none => none
          | some job => some (some job)

def normalizeFallbackJobs : List Json → Option (List JobListing)
  | [] => some []
  | j :: js => do
      let r ← normalizeFallbackJob j
      let rest ← normalizeFallbackJobs js
      match r with
      | none => some rest
      | some job => some (job :: rest)

/-- `_fallback_job_search`, lines 499-592.  The API response content is the
`Option String` argument (`none` = transport failure or missing choices).
Only a whole-content `json.loads` is attempted; a parse failure or any
exception in the loop yields `[]` (handlers at lines 587 and 590). -/
def fallback_job_search (apiResult : Option String) : List JobListing :=
  match apiResult with
  | none => []
  | some content =>
      match json_loads content with
      | none => []
      | some v =>
          match normalizeFallbackJobs (coerceJobsList v) with
          | none => []
          | some out => out

/-! ## Search configurations, metrics, and `search_job_openings` -/

/-- The `metrics` sub-dict of a search configuration (floats as `Rat`). -/
structure SearchMetrics where
  total_runs : Nat
  successful_runs : Nat
  average_jobs_returned : Rat
  average_response_time : Rat
deriving DecidableEq, Repr

/-- A search configuration record (`_load_search_configs` shape; the
`created_at`/`updated_at` timestamps are abstracted away). -/
structure SearchConfig where
  description : String
  system_prompt : String
  user_prompt_template : String
  model : String
  temperature : Rat
  use_fallback : Bool
  metrics : SearchMetrics
deriving DecidableEq, Repr

/-- A `metrics_update` dict as passed to `save_search_metrics`: any subset
of the four metric keys. -/
structure MetricsUpdate where
  total_runs : Option Nat
  successful_runs : Option Nat
  average_jobs_returned : Option Rat
  average_response_time : Option Rat
deriving DecidableEq, Repr

/-- `self.search_configs[config_name]["metrics"].update(metrics_update)`. -/
def SearchMetrics.applyUpdate (m : SearchMetrics) (u : MetricsUpdate) : SearchMetrics :=
  { total_runs := u.total_runs.getD m.total_runs
    successful_runs := u.successful_runs.getD m.successful_runs
    average_jobs_returned := u.average_jobs_returned.getD m.average_jobs_returned
    average_response_time := u.average_response_time.getD m.average_response_time }

/-- In-place update of one configuration's metrics dict (first occurrence
of the key, as in a Python dict). -/
def setConfigMetrics :
    List (String × SearchConfig) → String → SearchMetrics → List (String × SearchConfig)
  | [], _, _ => []
  | (k, c) :: rest, name, m =>
      if k = name then (k, { c with metrics := m }) :: rest
      else (k, c) :: setConfigMetrics rest name m

/-- `save_search_metrics` (lines 247-260): when the configuration exists,
merge the update into its metrics and rewrite the whole store file.  The
in-memory store after the call is returned; the on-disk write is modelled
separately by `saveFileOps`. -/
def save_search_metrics (store : List (String × SearchConfig)) (name : String)
    (u : MetricsUpdate) : List (String × SearchConfig) :=
  match lookupKV store name with
  | some c => setConfigMetrics store name (c.metrics.applyUpdate u)
  | none => store

/-- The net effect on a configuration's metrics of one request that reaches
the metrics block (lines 381-383 then 460-477): `total_runs` is incremented
in place first, and the running-average formulas then read the incremented
count. -/
def metricsStep (m : SearchMetrics) (numJobs : Nat) (duration : Rat) : SearchMetrics :=
  let t : Nat := m.total_runs + 1
  { total_runs := t
    successful_runs := m.successful_runs + (if numJobs > 0 then 1 else 0)
    average_jobs_returned := (m.average_jobs_returned * t + numJobs) / (t + 1)
    average_response_time := (m.average_response_time * t + duration) / (t + 1) }

/-- Lines 344-349: `config_name or self.active_config_name`, then fall back
to `"default"` when the name is not in the store (Python `or` also rejects
the empty string). -/
def resolveConfigName (store : List (String × SearchConfig)) (activeName : String)
    (configNameArg : Option String) : String :=
  let name0 := match configNameArg with
    | none => activeName
    | some s => if s = "" then activeName else s
  if (lookupKV store name0).isSome then name0 else "default"

/-- Everything observable about one `search_job_openings` call. -/
structure SearchOutcome where
  /-- The returned listings. -/
  result : List JobListing
  /-- The `save_search_metrics` calls made, in order (name, update dict). -/
  saves : List (String × MetricsUpdate)
  /-- How many times `_fallback_job_search` was invoked. -/
  fallbackCalls : Nat
  /-- The configuration name the run resolved to. -/
  resolvedConfig : String
  /-- The in-memory store after the call. -/
  store : List (String × SearchConfig)
deriving Repr

/-- `search_job_openings` (lines 333-497) as a function of the transport
results.  `apiResult`/`fallbackApiResult` are the primary/fallback response
contents (`none` = transport failure or a response without `choices`);
`duration` is the elapsed wall-clock time of the request.  The outer
`none` is a `KeyError` escaping the function (resolution found neither the
requested name nor `"default"`, which happens before the `try`). -/
def searchWithConfig (store : List (String × SearchConfig)) (name : String)
    (config : SearchConfig) (apiResult : Option String)
    (fallbackApiResult : Option String) (duration : Rat) : SearchOutcome :=
      -- lines 381-383: current_metrics["total_runs"] += 1 (in-place)
      let m1 : SearchMetrics := { config.metrics with total_runs := config.metrics.total_runs + 1 }
      let store1 := setConfigMetrics store name m1
      match apiResult with
      | none =>
          -- lines 385-388: invalid API response; the full (already
          -- incremented) metrics dict is passed to save_search_metrics
          let u : MetricsUpdate :=
            { total_runs := some m1.total_runs, successful_runs := some m1.successful_runs,
              average_jobs_returned := some m1.average_jobs_returned,
              average_response_time := some m1.average_response_time }
          { result := [], saves := [(name, u)], fallbackCalls := 0,
            resolvedConfig := name, store := save_search_metrics store1 name u }
      | some content =>
          match extract_jobs_json content with
          | none =>
              -- lines 403-407 / 489-491: parse failure returns [] with no save
              { result := [], saves := [], fallbackCalls := 0,
                resolvedConfig := name, store := store1 }
          | some parsed =>
              match normalizePrimaryJobs name (coerceJobsList parsed) with
              | none =>
                  -- an exception in the loop reaches the handler at line
                  -- 493: return [] with no save
                  { result := [], saves := [], fallbackCalls := 0,
                    resolvedConfig := name, store := store1 }
              | some normalized =>
                  -- lines 460-477: metrics update for this run
                  let u : MetricsUpdate :=
                    { total_runs := none
                      successful_runs :=
                        some (m1.successful_runs + (if normalized.length > 0 then 1 else 0))
                      average_jobs_returned :=
                        some ((m1.average_jobs_returned * m1.total_runs + normalized.length) /
                          (m1.total_runs + 1))
                      average_response_time :=
                        some ((m1.average_response_time * m1.total_runs + duration) /
                          (m1.total_runs + 1)) }
                  let store2 := save_search_metrics store1 name u
                  -- lines 483-487: fallback only when no valid jobs and
                  -- use_fallback
                  if normalized.isEmpty && config.use_fallback then
                    { result := fallback_job_search fallbackApiResult,
                      saves := [(name, u)], fallbackCalls := 1,
                      resolvedConfig := name, store := store2 }
                  else
                    { result := normalized, saves := [(name, u)], fallbackCalls := 0,
                      resolvedConfig := name, store := store2 }

/-- `search_job_openings` (lines 333-497): resolve the configuration name,
then run the request against that configuration.  The outer `none` is the
`KeyError` escaping the function when neither the requested name nor
`"default"` is in the store (the subscript at line 351 is before the
`try`). -/
def search_job_openings (store : List (String × SearchConfig)) (activeName : String)
    (configNameArg : Option String) (apiResult : Option String)
    (fallbackApiResult : Option String) (duration : Rat) : Option SearchOutcome :=
  match lookupKV store (resolveConfigName store activeName configNameArg) with
  | none => none
  | some config =>
      some (searchWithConfig store (resolveConfigName store activeName configNameArg)
        config apiResult fallbackApiResult duration)

/-! ## The configuration-file write (`save_search_metrics`, lines 254-260)

`with open(config_path, 'w') as f: json.dump(self.search_configs, f)`:
opening with mode `'w'` truncates the file, then the serialization is
written.  The write is modelled as the operation trace it performs on the
file, so interruption points are explicit. -/

inductive FileOp where
  | truncate : FileOp
  | writeAll : String → FileOp
deriving DecidableEq, Repr

/-- The operation trace of the store write, given the serialized store. -/
def saveFileOps (serialized : String) : List FileOp := [FileOp.truncate, FileOp.writeAll serialized]

def applyFileOp (cur : String) : FileOp → String
  | FileOp.truncate => ""
  | FileOp.writeAll s => cur ++ s

/-- The file contents visible if the process stops after any prefix of the
operation trace (including before the first and after the last). -/
def fileStatesDuring (initial : String) : List FileOp → List String
  | [] => [initial]
  | op :: ops => initial :: fileStatesDuring (applyFileOp initial op) ops

def finalFileState (initial : String) (ops : List FileOp) : String :=
  ops.foldl applyFileOp initial

/-- Atomicity: every interruption leaves either the old or the complete new
contents on disk. -/
def atomicSave (initial : String) (ops : List FileOp) : Prop :=
  ∀ s ∈ fileStatesDuring initial ops, s = initial ∨ s = finalFileState initial ops

instance (initial : String) (ops : List FileOp) : Decidable (atomicSave initial ops) := by
  unfold atomicSave; infer_instance

/-! ## `get_company_info` / `_normalize_company_data` (job_discovery) -/

namespace JobDiscovery

open JobPlatform

/-- `_normalize_company_data`, lines 733-741 / 746-754: one company dict
with every expected field defaulted where absent. -/
def normalizeCompanyRecord (c : List (String × Json)) : List (String × Json) :=
  [("name", (lookupKV c "name").getD (Json.str "Unknown")),
   ("founding_year", (lookupKV c "founding_year").getD (Json.str "N/A")),
   ("size", (lookupKV c "size").getD (Json.str "N/A")),
   ("funding", (lookupKV c "funding").getD (Json.str "N/A")),
   ("financial_performance", (lookupKV c "financial_performance").getD (Json.str "N/A")),
   ("headquarters", (lookupKV c "headquarters").getD (Json.str "N/A"))]

/-- List elements that are not dicts are skipped (line 732). -/
def normalizeCompanyItem : Json → Option Json
  | Json.obj f => some (Json.obj (normalizeCompanyRecord f))
  | _ => none

/-- `_normalize_company_data`, lines 719-756. -/
def normalize_company_data : Json → Json
  | Json.arr xs => Json.obj [("companies", Json.arr (xs.filterMap normalizeCompanyItem))]
  | Json.obj f => Json.obj (normalizeCompanyRecord f)
  | _ => Json.obj []

/-- `_parse_company_response`, lines 640-717.  `reask` is the content of
the secondary "reformat into JSON" LLM call issued when every structural
strategy fails (`none` = that call failed too). -/
def parse_company_response (content : String) (reask : Option String) : Json :=
  match parse_company_content_core content with
  | some v => normalize_company_data v
  | none =>
      match reask with
      | some rc =>
          match json_loads rc with
          | some v => normalize_company_data v
          | none => Json.obj []
      | none => Json.obj []

/-- `get_company_info`, lines 594-638: transport failure or any exception
yields the empty record `{}` (never `None`). -/
def get_company_info (apiResult : Option String) (reask : Option String) : Json :=
  match apiResult with
  | none => Json.obj []
  | some content => parse_company_response content reask

end JobDiscovery

/-! ## `interview_prep.py`: strict record types and `get_company_info` -/

namespace InterviewPrep

open JobPlatform

/-- `CompanyReview` dataclass.  Field values are kept as parsed JSON values
(`from_dict` does no type validation, only key presence). -/
structure CompanyReview where
  overall_rating : Json
  work_life_balance : Json
  compensation : Json
  career_growth : Json
  culture : Json
  pros : Json
  cons : Json
  additional_metrics : Json
  last_updated : Json
  sources : List String
deriving Repr

/-- The fields `CompanyReview.from_dict` reads with `data[...]` (a missing
one raises `KeyError`). -/
def reviewRequiredFields : List String :=
  ["overall_rating", "work_life_balance", "compensation", "career_growth",
   "culture", "pros", "cons", "last_updated"]

/-- `CompanyReview.from_dict`, lines 26-40: every required key must be
present; `additional_metrics` defaults to `{}`; `sources` is left at its
dataclass default. -/
def CompanyReview.from_dict (d : List (String × Json)) : Option CompanyReview :=
  match lookupKV d "overall_rating", lookupKV d "work_life_balance",
        lookupKV d "compensation", lookupKV d "career_growth", lookupKV d "culture",
        lookupKV d "pros", lookupKV d "cons", lookupKV d "last_updated" with
  | some a, some b, some c, some g, some cu, some p, some co, some lu =>
      some { overall_rating := a, work_life_balance := b, compensation := c,
             career_growth := g, culture := cu, pros := p, cons := co,
             additional_metrics := (lookupKV d "additional_metrics").getD (Json.obj []),
             last_updated := lu, sources := [] }
  | _, _, _, _, _, _, _, _ => none

/-- `InterviewProcess` dataclass. -/
structure InterviewProcess where
  role : Json
  difficulty : Json
  duration : Json
  stages : Json
  common_questions : Json
  tips : Json
  last_updated : Json
  sources : List String
deriving Repr

def interviewRequiredFields : List String :=
  ["role", "difficulty", "duration", "stages", "common_questions", "tips", "last_updated"]

/-- `InterviewProcess.from_dict`, lines 53-63. -/
def InterviewProcess.from_dict (d : List (String × Json)) : Option InterviewProcess :=
  match lookupKV d "role", lookupKV d "difficulty", lookupKV d "duration",
        lookupKV d "stages", lookupKV d "common_questions", lookupKV d "tips",
        lookupKV d "last_updated" with
  | some r, some df, some du, some st, some cq, some tp, some lu =>
      some { role := r, difficulty := df, duration := du, stages := st,
             common_questions := cq, tips := tp, last_updated := lu, sources := [] }
  | _, _, _, _, _, _, _ => none

/-- The dict returned by `InterviewPrepManager.get_company_info` on
success. -/
structure IPResult where
  company_review : CompanyReview
  interview_process : InterviewProcess
deriving Repr

/-- `InterviewPrepManager.get_company_info`, lines 108-281.  Each API
argument carries the response content and its citations (`none` = the
request failed or had no `choices`).  Every failure path of the source
returns `None`. -/
def get_company_info (reviewResult : Option (String × List String))
    (interviewResult : Option (String × List String)) : Option IPResult :=
  match reviewResult with
  | none => none
  | some (reviewContent, reviewCitations) =>
      match interviewResult with
      | none => none
      | some (interviewContent, interviewCitations) =>
          match extract_json reviewContent with
          | none => none
          | some rv =>
              match rv with
              | Json.obj rf =>
                  -- review_data['sources'] = citations (from_dict never
                  -- reads this key)
                  let rf2 := insertKV rf "sources" (Json.arr (reviewCitations.map Json.str))
                  match CompanyReview.from_dict rf2 with
                  | none => none
                  | some review =>
                      match extract_json interviewContent with
                      | none => none
                      | some iv =>
                          match iv with
                          | Json.obj ifields =>
                              let if2 := insertKV ifields "sources"
                                (Json.arr (interviewCitations.map Json.str))
                              match InterviewProcess.from_dict if2 with
                              | none => none
                              | some iproc =>
                                  some { company_review :=
                                           { review with sources := reviewCitations },
                                         interview_process :=
                                           { iproc with sources := interviewCitations } }
                          | _ => none  -- unreachable: the group parses from a `{...}` match
              | _ => none  -- unreachable: the group parses from a `{...}` match

end InterviewPrep

/-! ## Concrete fixtures used by witnesses and counterexamples -/

/-- A configuration with zeroed metrics and the fallback enabled (the
shape of the bootstrapped `"default"` configuration). -/
def fixtureConfig : SearchConfig :=
  { description := "Default search configuration", system_prompt := "sys",
    user_prompt_template := "user", model := "sonar", temperature := 1/2,
    use_fallback := true, metrics := ⟨0, 0, 0, 0⟩ }

def fixtureStore : List (String × SearchConfig) := [("default", fixtureConfig)]

/-- The same configuration with the fallback disabled. -/
def fixtureConfigNoFb : SearchConfig := { fixtureConfig with use_fallback := false }

def fixtureStoreNoFb : List (String × SearchConfig) := [("default", fixtureConfigNoFb)]

/-- A fully-populated job candidate. -/
def fixtureJobJson : Json :=
  Json.obj [("title", Json.str "T"), ("company", Json.str "Acme"),
    ("location", Json.str "L"), ("description", Json.str "D"),
    ("requirements", Json.arr [Json.str "R"]), ("link", Json.str "x.com/j")]

/-- The normalized listing produced from `fixtureJobJson`. -/
def fixtureJobListing : JobListing :=
  { title := "T", company := "Acme", location := "L", description := "D",
    requirements := [Json.str "R"], link := "https://x.com/j",
    posted_date := "Unknown", salary := "Not specified",
    metadata_config := some "default" }

end JobPlatform

/-! # Theorems settling the claims -/

namespace JobPlatform

/-- C1: the claim says that after N metrics updates starting from zeroed
metrics, `average_response_time` is the arithmetic mean of the N observed
durations.  The code increments `total_runs` in place before applying the
running-average formula, so the very first update with duration 2 stores
average 1 (= 2/2), not the mean 2; `total_runs` itself is incremented by
exactly one.  The update formula's intent (a running mean) is clear from
the field names, so this is a bug in the code. -/
theorem c1_first_update_not_mean :
    (metricsStep ⟨0, 0, 0, 0⟩ 0 2).total_runs = 1 ∧
    (metricsStep ⟨0, 0, 0, 0⟩ 0 2).average_response_time = 1 ∧
    (metricsStep ⟨0, 0, 0, 0⟩ 0 2).average_response_time ≠ 2 := by
  refine ⟨rfl, ?_, ?_⟩ <;> norm_num [metricsStep]

/-- C2 counterexample: `[{"x": 1}]` (written here with escaped braces) is
well-formed JSON in the bare wrapping style, but the interview parser's
`extract_json` searches only for object patterns, finds none, and raises —
so not every parser recovers every well-formed embedded JSON value. -/
theorem c2_counterexample :
    json_loads "[\x7b\"x\": 1\x7d]" = some (Json.arr [Json.obj [("x", Json.num 1 0)]]) ∧
    extract_json "[\x7b\"x\": 1\x7d]" = none :=
  ⟨rfl, rfl⟩

/-- C2 amended: when the embedded JSON is the whole text (the bare
wrapping style), the job-search and company extraction steps return
exactly the parsed value, because both try a whole-text `json.loads`
first; the interview `extract_json` does not handle every style (it never
recovers a bare array, see the counterexample). -/
theorem c2_bare_json_extraction (s : String) (v : Json) (h : json_loads s = some v) :
    extract_jobs_json s = some v ∧ parse_company_content_core s = some v := by
  constructor <;> simp [extract_jobs_json, parse_company_content_core, h]

/-- Witness for C2 amended at a concrete bare JSON document. -/
theorem c2_bare_json_extraction_witness :
    extract_jobs_json "[1]" = some (Json.arr [Json.num 1 0]) ∧
    parse_company_content_core "[1]" = some (Json.arr [Json.num 1 0]) :=
  c2_bare_json_extraction "[1]" (Json.arr [Json.num 1 0]) rfl

/-- C3 counterexample: with `use_fallback = true`, a primary response
whose content fails JSON extraction ends the primary phase with zero
valid listings, yet the fallback is never invoked (the parse-failure
branch returns `[]` directly) — refuting the claimed "if and only if". -/
theorem c3_counterexample :
    (search_job_openings fixtureStore "default" none (some "no json here")
        (some "[]") 1).map (fun o => (o.result, o.fallbackCalls)) = some ([], 0) ∧
    fixtureConfig.use_fallback = true :=
  ⟨rfl, rfl⟩

/-- C4 counterexample: a request whose content fails JSON extraction
performs no `save_search_metrics` call at all (the claim requires exactly
one, with the elapsed duration). -/
theorem c4_counterexample :
    (search_job_openings fixtureStore "default" none (some "still not json")
        none 1).map (fun o => o.saves.length) = some 0 ∧ (0 : Nat) ≠ 1 :=
  ⟨rfl, by decide⟩

/-- C5 counterexample: the fallback path checks only that `title` and
`company` keys exist, so a fallback listing with the placeholder company
"N/A" is returned to the caller. -/
theorem c5_counterexample :
    (search_job_openings fixtureStore "default" none (some "[]")
        (some "[\x7b\"title\": \"Eng\", \"company\": \"N/A\"\x7d]") 1).map
      (fun o => o.result.map JobListing.company) = some ["N/A"] ∧
    pyLower "N/A" ∈ placeholderCompanies :=
  ⟨rfl, by decide⟩

/-- C8 counterexample: the metrics save rewrites the configuration file in
place (truncate, then write), so stopping between the two operations
leaves an empty file — neither the old contents nor the new. -/
theorem c8_counterexample :
    ¬ atomicSave "old store" (saveFileOps "new store") := by decide

/-- C8 amended: `save_search_metrics` writes the store file by truncating
and then writing the new serialization; the final contents are correct,
but the intermediate crash state is the empty file, so the write is not
atomic whenever the old and new contents are nonempty. -/
theorem c8_truncate_then_write (initial serialized : String) :
    fileStatesDuring initial (saveFileOps serialized) = [initial, "", serialized] ∧
    finalFileState initial (saveFileOps serialized) = serialized := by
  constructor <;> simp [fileStatesDuring, saveFileOps, applyFileOp, finalFileState]

theorem listStartsWith_append : ∀ p s : List Char, listStartsWith (p ++ s) p = true
  | [], s => by cases s <;> simp [listStartsWith]
  | c :: ps, s => by simp [listStartsWith, listStartsWith_append ps s]

theorem pyStartswith_append (p s : String) : pyStartswith (p ++ s) p = true := by
  simpa [pyStartswith] using listStartsWith_append p.toList s.toList

/-- C9: link normalization prepends `https://` exactly when the link lacks
an `http://`/`https://` scheme, leaves an already-valid link unchanged,
and is idempotent. -/
theorem c9_link_normalization (link : String) :
    ((pyStartswith link "http://" || pyStartswith link "https://") = false →
      fixLink link = "https://" ++ link) ∧
    ((pyStartswith link "http://" || pyStartswith link "https://") = true →
      fixLink link = link) ∧
    fixLink (fixLink link) = fixLink link := by
  refine ⟨fun h => by simp [fixLink, h], fun h => by simp [fixLink, h], ?_⟩
  by_cases h : (pyStartswith link "http://" || pyStartswith link "https://") = false
  · have h1 : fixLink link = "https://" ++ link := by simp [fixLink, h]
    have h2 : pyStartswith ("https://" ++ link) "https://" = true := pyStartswith_append _ _
    rw [h1]
    simp [fixLink, h2]
  · have h' : (pyStartswith link "http://" || pyStartswith link "https://") = true := by
      revert h
      cases pyStartswith link "http://" || pyStartswith link "https://" <;> simp
    simp [fixLink, h']

/-- Every `save_search_metrics` call made by one request targets the
resolved configuration name, which the outcome reports. -/
theorem searchWithConfig_saves_name (store : List (String × SearchConfig)) (name : String)
    (config : SearchConfig) (api fb : Option String) (dur : Rat) :
    (searchWithConfig store name config api fb dur).resolvedConfig = name ∧
    ∀ p ∈ (searchWithConfig store name config api fb dur).saves, p.1 = name := by
  unfold searchWithConfig
  cases api with
  | none => simp
  | some content =>
      cases hx : extract_jobs_json content with
      | none => simp [hx]
      | some parsed =>
          cases hn : normalizePrimaryJobs name (coerceJobsList parsed) with
          | none => simp [hx, hn]
          | some normalized =>
              by_cases hfb : (normalized.isEmpty && config.use_fallback) = true
              · simp [hx, hn, hfb]
              · simp [hx, hn, hfb]

/-- Witness for C9 at a concrete schemeless link. -/
theorem c9_link_normalization_witness :
    fixLink "example.com/jobs" = "https://" ++ "example.com/jobs" ∧
    fixLink (fixLink "example.com/jobs") = fixLink "example.com/jobs" :=
  ⟨(c9_link_normalization "example.com/jobs").1 rfl,
   (c9_link_normalization "example.com/jobs").2.2⟩

/-- C10: requesting a configuration name that is not in the store (while
`"default"` is) does not fail: the name silently resolves to `"default"`,
the run is identical to one requested with `"default"`, and the run's
metrics saves are recorded under `"default"`. -/
theorem c10_unknown_config_uses_default (store : List (String × SearchConfig))
    (activeName reqName : String) (api fb : Option String) (dur : Rat)
    (hmiss : lookupKV store reqName = none) (hne : reqName ≠ "")
    (hdef : (lookupKV store "default").isSome) :
    resolveConfigName store activeName (some reqName) = "default" ∧
    (search_job_openings store activeName (some reqName) api fb dur).isSome ∧
    search_job_openings store activeName (some reqName) api fb dur =
      search_job_openings store activeName (some "default") api fb dur ∧
    ∀ o, search_job_openings store activeName (some reqName) api fb dur = some o →
      o.resolvedConfig = "default" ∧ ∀ p ∈ o.saves, p.1 = "default" := by
  have hres : resolveConfigName store activeName (some reqName) = "default" := by
    simp [resolveConfigName, hne, hmiss]
  have hd : ¬ ("default" : String) = "" := by decide
  have hres2 : resolveConfigName store activeName (some "default") = "default" := by
    simp [resolveConfigName, hd]
  refine ⟨hres, ?_, ?_, ?_⟩
  · unfold search_job_openings
    rw [hres]
    cases hlk : lookupKV store "default" with
    | none => rw [hlk] at hdef; simp at hdef
    | some config => rfl
  · unfold search_job_openings
    rw [hres, hres2]
  · intro o h
    unfold search_job_openings at h
    rw [hres] at h
    cases hlk : lookupKV store "default" with
    | none => rw [hlk] at h; simp at h
    | some config =>
        rw [hlk] at h
        simp only [Option.some.injEq] at h
        subst h
        simpa using searchWithConfig_saves_name store "default" config api fb dur

/-- Witness for C10: the fixture store has only `"default"`, and a request
for the unknown name `"missing"` resolves and runs against it. -/
theorem c10_unknown_config_uses_default_witness :
    resolveConfigName fixtureStore "default" (some "missing") = "default" ∧
    (search_job_openings fixtureStore "default" (some "missing") none none 1).isSome :=
  ⟨(c10_unknown_config_uses_default fixtureStore "default" "missing" none none 1
      rfl (by decide) rfl).1,
   (c10_unknown_config_uses_default fixtureStore "default" "missing" none none 1
      rfl (by decide) rfl).2.1⟩

/-- C3 amended: the fallback search runs exactly once if and only if JSON
extraction succeeded, normalization completed with zero valid listings,
and the configuration's `use_fallback` flag is set; its output is then the
final result, and with the flag unset the fallback never runs.  (On a
parse failure the function returns `[]` without consulting the fallback —
see the counterexample.) -/
theorem c3_fallback_conditions (store : List (String × SearchConfig)) (name : String)
    (config : SearchConfig) (api fb : Option String) (dur : Rat) :
    ((searchWithConfig store name config api fb dur).fallbackCalls = 1 ↔
      (config.use_fallback = true ∧ ∃ content parsed, api = some content ∧
        extract_jobs_json content = some parsed ∧
        normalizePrimaryJobs name (coerceJobsList parsed) = some [])) ∧
    ((searchWithConfig store name config api fb dur).fallbackCalls = 1 →
      (searchWithConfig store name config api fb dur).result = fallback_job_search fb) ∧
    (config.use_fallback = false →
      (searchWithConfig store name config api fb dur).fallbackCalls = 0) := by
  unfold searchWithConfig
  cases api with
  | none => simp
  | some content =>
      cases hx : extract_jobs_json content with
      | none => simp [hx]
      | some parsed =>
          cases hn : normalizePrimaryJobs name (coerceJobsList parsed) with
          | none => simp [hx, hn]
          | some normalized =>
              by_cases hfb : (normalized.isEmpty && config.use_fallback) = true
              · have hfb2 := hfb
                simp only [Bool.and_eq_true] at hfb2
                obtain ⟨hemp, hflag⟩ := hfb2
                have hnil : normalized = [] := by simpa using hemp
                subst hnil
                simp [hx, hn, hfb, hflag]
              · simp only [hx, hn, if_neg hfb]
                refine ⟨?_, by simp, by simp⟩
                constructor
                · intro h0
                  exact absurd h0 (by simp)
                · rintro ⟨hflag, content2, parsed2, hc2, hx2, hn2⟩
                  exfalso
                  injection hc2 with hc2
                  subst hc2
                  rw [hx] at hx2
                  injection hx2 with hp
                  subst hp
                  rw [hn] at hn2
                  injection hn2 with hn2
                  rw [hn2] at hfb
                  simp [hflag] at hfb

/-- Witness for C3 amended: with the fallback disabled the fallback is not
invoked even though the primary phase yields zero listings. -/
theorem c3_fallback_conditions_witness :
    (searchWithConfig fixtureStoreNoFb "default" fixtureConfigNoFb
      (some "[]") none 1).fallbackCalls = 0 :=
  (c3_fallback_conditions fixtureStoreNoFb "default" fixtureConfigNoFb
    (some "[]") none 1).2.2 rfl

/-- C4 amended: `save_search_metrics` runs exactly once with the elapsed
duration folded into `average_response_time` only on the path where JSON
extraction and normalization succeed; on a missing/invalid API response it
runs exactly once but re-saves the pre-existing averages (no duration); on
an extraction failure or a normalization exception it does not run at
all. -/
theorem c4_saves_by_path (store : List (String × SearchConfig)) (name : String)
    (config : SearchConfig) (api fb : Option String) (dur : Rat) :
    (api = none →
      (searchWithConfig store name config api fb dur).saves =
        [(name, { total_runs := some (config.metrics.total_runs + 1),
                  successful_runs := some config.metrics.successful_runs,
                  average_jobs_returned := some config.metrics.average_jobs_returned,
                  average_response_time := some config.metrics.average_response_time })]) ∧
    (∀ content, api = some content → extract_jobs_json content = none →
      (searchWithConfig store name config api fb dur).saves = []) ∧
    (∀ content parsed, api = some content → extract_jobs_json content = some parsed →
      normalizePrimaryJobs name (coerceJobsList parsed) = none →
      (searchWithConfig store name config api fb dur).saves = []) ∧
    (∀ content parsed normalized, api = some content →
      extract_jobs_json content = some parsed →
      normalizePrimaryJobs name (coerceJobsList parsed) = some normalized →
      (searchWithConfig store name config api fb dur).saves =
        [(name, { total_runs := none,
                  successful_runs := some (config.metrics.successful_runs +
                    (if normalized.length > 0 then 1 else 0)),
                  average_jobs_returned := some ((config.metrics.average_jobs_returned *
                    ((config.metrics.total_runs + 1 : Nat) : Rat) + normalized.length) /
                    (((config.metrics.total_runs + 1 : Nat) : Rat) + 1)),
                  average_response_time := some ((config.metrics.average_response_time *
                    ((config.metrics.total_runs + 1 : Nat) : Rat) + dur) /
                    (((config.metrics.total_runs + 1 : Nat) : Rat) + 1)) })]) := by
  refine ⟨?_, ?_, ?_, ?_⟩
  · rintro rfl
    rfl
  · rintro content rfl hx
    unfold searchWithConfig
    simp [hx]
  · rintro content parsed rfl hx hn
    unfold searchWithConfig
    simp [hx, hn]
  · rintro content parsed normalized rfl hx hn
    unfold searchWithConfig
    simp only [hx, hn]
    by_cases hfb : (normalized.isEmpty && config.use_fallback) = true
    · simp [hfb]
    · simp [hfb]

/-- Witness for C4 amended on the invalid-API-response path: exactly one
save, carrying the incremented `total_runs` and the untouched averages. -/
theorem c4_saves_by_path_witness :
    (searchWithConfig fixtureStore "default" fixtureConfig none none 1).saves =
      [("default", { total_runs := some 1, successful_runs := some 0,
                     average_jobs_returned := some 0, average_response_time := some 0 })] :=
  (c4_saves_by_path fixtureStore "default" fixtureConfig none none 1).1 rfl

/-- On a parsed dict, `all(field in job for field in fields)` succeeds with
`True` exactly when every listed key is present. -/
theorem pyAllContains_obj_iff (f : List (String × Json)) :
    ∀ ks : List String, (pyAllContains (Json.obj f) ks = some true ↔
      ∀ k ∈ ks, (lookupKV f k).isSome = true)
  | [] => by simp [pyAllContains]
  | k :: ks => by
      by_cases h : (lookupKV f k).isSome = true
      · simp [pyAllContains, pyContainsKey, h, pyAllContains_obj_iff f ks]
      · simp [pyAllContains, pyContainsKey, h]

/-- A candidate kept by the primary normalization loop is a dict with all
required keys present whose `company` value is a string that lowercases to
a non-placeholder. -/
theorem normalizePrimaryJob_kept (configName : String) (j : Json) (job : JobListing)
    (h : normalizePrimaryJob configName j = some (some job)) :
    ∃ f s, j = Json.obj f ∧
      (∀ k ∈ requiredJobFields, (lookupKV f k).isSome = true) ∧
      lookupKV f "company" = some (Json.str s) ∧
      pyLower s ∉ placeholderCompanies := by
  unfold normalizePrimaryJob at h
  cases hall : pyAllContains j requiredJobFields with
  | none => rw [hall] at h; cases h
  | some b =>
      rw [hall] at h
      cases b with
      | false => simp at h
      | true =>
          cases j with
          | obj f =>
              have hreq := (pyAllContains_obj_iff f requiredJobFields).mp hall
              have hcsome : (lookupKV f "company").isSome = true :=
                hreq "company" (by simp [requiredJobFields])
              obtain ⟨v, hv⟩ := Option.isSome_iff_exists.mp hcsome
              simp only [pyGet, hv, Option.getD_some] at h
              cases v with
              | str s =>
                  by_cases hpl : pyLower s ∈ placeholderCompanies
                  · simp [pyLowerJ, hpl] at h
                  · exact ⟨f, s, rfl, hreq, hv, hpl⟩
              | null => simp [pyLowerJ] at h
              | bool c => simp [pyLowerJ] at h
              | num m e => simp [pyLowerJ] at h
              | arr xs => simp [pyLowerJ] at h
              | obj g => simp [pyLowerJ] at h
          | null => simp [pyGet] at h
          | bool c => simp [pyGet] at h
          | num m e => simp [pyGet] at h
          | str s => simp [pyGet] at h
          | arr xs => simp [pyGet] at h

/-- C5 amended: every listing kept by the primary normalization loop comes
from a source record carrying all six required fields and a string company
value whose lowercase form is not in the placeholder blacklist.  (The
fallback path enforces no such invariant — see the counterexample.) -/
theorem c5_primary_listing_invariant (configName : String) (js : List Json)
    (out : List JobListing) (h : normalizePrimaryJobs configName js = some out) :
    ∀ job ∈ out, ∃ f s, Json.obj f ∈ js ∧
      (∀ k ∈ requiredJobFields, (lookupKV f k).isSome = true) ∧
      lookupKV f "company" = some (Json.str s) ∧
      pyLower s ∉ placeholderCompanies := by
  induction js generalizing out with
  | nil =>
      simp [normalizePrimaryJobs] at h
      subst h
      simp
  | cons j js ih =>
      unfold normalizePrimaryJobs at h
      cases hr : normalizePrimaryJob configName j with
      | none => rw [hr] at h; cases h
      | some r =>
          rw [hr] at h
          cases hrest : normalizePrimaryJobs configName js with
          | none => rw [hrest] at h; cases h
          | some rest =>
              rw [hrest] at h
              cases r with
              | none =>
                  simp at h
                  subst h
                  intro job hj
                  obtain ⟨f, s, hf, hreqs, hc, hnp⟩ := ih rest hrest job hj
                  exact ⟨f, s, List.mem_cons_of_mem _ hf, hreqs, hc, hnp⟩
              | some kept =>
                  simp at h
                  subst h
                  intro job hj
                  rcases List.mem_cons.mp hj with rfl | hj2
                  · obtain ⟨f, s, rfl, hreqs, hc, hnp⟩ :=
                      normalizePrimaryJob_kept configName j job hr
                    exact ⟨f, s, List.mem_cons_self _ _, hreqs, hc, hnp⟩
                  · obtain ⟨f, s, hf, hreqs, hc, hnp⟩ := ih rest hrest job hj2
                    exact ⟨f, s, List.mem_cons_of_mem _ hf, hreqs, hc, hnp⟩

/-- Witness for C5 amended: the fixture candidate is kept, and the theorem
recovers its source record and non-placeholder company. -/
theorem c5_primary_listing_invariant_witness :
    ∃ f s, Json.obj f ∈ [fixtureJobJson] ∧
      (∀ k ∈ requiredJobFields, (lookupKV f k).isSome = true) ∧
      lookupKV f "company" = some (Json.str s) ∧
      pyLower s ∉ placeholderCompanies :=
  c5_primary_listing_invariant "default" [fixtureJobJson] [fixtureJobListing] rfl
    fixtureJobListing (by simp)

/-- C6: `get_company_info` wraps a parsed list payload as
`{companies: [...]}` (with non-dict elements skipped and every record
field defaulted), returns a parsed single object directly with the same
defaulting, and returns the empty record `{}` — never a null — on a
missing response or total parse failure. -/
theorem c6_company_info_shapes (reask : Option String) :
    (JobDiscovery.get_company_info none reask = Json.obj []) ∧
    (∀ content xs, parse_company_content_core content = some (Json.arr xs) →
      JobDiscovery.get_company_info (some content) reask =
        Json.obj [("companies", Json.arr (xs.filterMap JobDiscovery.normalizeCompanyItem))]) ∧
    (∀ content f, parse_company_content_core content = some (Json.obj f) →
      JobDiscovery.get_company_info (some content) reask =
        Json.obj (JobDiscovery.normalizeCompanyRecord f)) ∧
    (∀ content, parse_company_content_core content = none →
      (∀ rc, reask = some rc → json_loads rc = none) →
      JobDiscovery.get_company_info (some content) reask = Json.obj []) ∧
    (∀ f,
      lookupKV (JobDiscovery.normalizeCompanyRecord f) "name" =
        some ((lookupKV f "name").getD (Json.str "Unknown")) ∧
      lookupKV (JobDiscovery.normalizeCompanyRecord f) "founding_year" =
        some ((lookupKV f "founding_year").getD (Json.str "N/A")) ∧
      lookupKV (JobDiscovery.normalizeCompanyRecord f) "size" =
        some ((lookupKV f "size").getD (Json.str "N/A")) ∧
      lookupKV (JobDiscovery.normalizeCompanyRecord f) "funding" =
        some ((lookupKV f "funding").getD (Json.str "N/A")) ∧
      lookupKV (JobDiscovery.normalizeCompanyRecord f) "financial_performance" =
        some ((lookupKV f "financial_performance").getD (Json.str "N/A")) ∧
      lookupKV (JobDiscovery.normalizeCompanyRecord f) "headquarters" =
        some ((lookupKV f "headquarters").getD (Json.str "N/A"))) := by
  refine ⟨rfl, ?_, ?_, ?_, ?_⟩
  · intro content xs h
    simp [JobDiscovery.get_company_info, JobDiscovery.parse_company_response, h,
      JobDiscovery.normalize_company_data]
  · intro content f h
    simp [JobDiscovery.get_company_info, JobDiscovery.parse_company_response, h,
      JobDiscovery.normalize_company_data]
  · intro content h hre
    cases hreask : reask with
    | none =>
        simp [JobDiscovery.get_company_info, JobDiscovery.parse_company_response, h]
    | some rc =>
        have hrc := hre rc hreask
        simp [JobDiscovery.get_company_info, JobDiscovery.parse_company_response, h, hrc]
  · intro f
    exact ⟨rfl, rfl, rfl, rfl, rfl, rfl⟩

/-- Witness for C6: a two-element array payload (one record, one non-dict)
becomes a `companies` wrapper with the record's absent fields defaulted. -/
theorem c6_company_info_shapes_witness :
    JobDiscovery.get_company_info (some "[\x7b\"name\": \"A\"\x7d, 3]") none =
      Json.obj [("companies", Json.arr
        [Json.obj [("name", Json.str "A"),
          ("founding_year", Json.str "N/A"), ("size", Json.str "N/A"),
          ("funding", Json.str "N/A"), ("financial_performance", Json.str "N/A"),
          ("headquarters", Json.str "N/A")]])] :=
  (c6_company_info_shapes none).2.1 "[\x7b\"name\": \"A\"\x7d, 3]"
    [Json.obj [("name", Json.str "A")], Json.num 3 0] rfl

theorem lookupKV_insertKV_ne {α : Type} (d : List (String × α)) (k0 k : String) (v : α)
    (h : ¬ k0 = k) : lookupKV (insertKV d k0 v) k = lookupKV d k := by
  induction d with
  | nil => simp [insertKV, lookupKV, h]
  | cons p rest ih =>
      obtain ⟨k1, v1⟩ := p
      by_cases h1 : k1 = k0
      · subst h1
        simp [insertKV, lookupKV, h]
      · simp [insertKV, lookupKV, h1, ih]

theorem reviewRequired_ne_sources (k : String)
    (hk : k ∈ InterviewPrep.reviewRequiredFields) : ¬ ("sources" : String) = k := by
  simp [InterviewPrep.reviewRequiredFields] at hk
  rcases hk with rfl | rfl | rfl | rfl | rfl | rfl | rfl | rfl <;> decide

theorem interviewRequired_ne_sources (k : String)
    (hk : k ∈ InterviewPrep.interviewRequiredFields) : ¬ ("sources" : String) = k := by
  simp [InterviewPrep.interviewRequiredFields] at hk
  rcases hk with rfl | rfl | rfl | rfl | rfl | rfl | rfl <;> decide

/-- A missing required field makes `CompanyReview.from_dict` raise
(`KeyError`, modelled as `none`). -/
theorem CompanyReview_from_dict_missing (d : List (String × Json)) (k : String)
    (hk : k ∈ InterviewPrep.reviewRequiredFields) (h : lookupKV d k = none) :
    InterviewPrep.CompanyReview.from_dict d = none := by
  simp [InterviewPrep.reviewRequiredFields] at hk
  rcases hk with rfl | rfl | rfl | rfl | rfl | rfl | rfl | rfl <;>
  all_goals
    unfold InterviewPrep.CompanyReview.from_dict
    split
    · simp_all
    · rfl

/-- A constructed `CompanyReview` comes from a dict with every required
field present. -/
theorem CompanyReview_from_dict_required (d : List (String × Json))
    (r : InterviewPrep.CompanyReview)
    (h : InterviewPrep.CompanyReview.from_dict d = some r) :
    ∀ k ∈ InterviewPrep.reviewRequiredFields, (lookupKV d k).isSome = true := by
  unfold InterviewPrep.CompanyReview.from_dict at h
  split at h
  · intro k hk
    simp [InterviewPrep.reviewRequiredFields] at hk
    rcases hk with rfl | rfl | rfl | rfl | rfl | rfl | rfl | rfl <;> simp_all
  · cases h

theorem InterviewProcess_from_dict_missing (d : List (String × Json)) (k : String)
    (hk : k ∈ InterviewPrep.interviewRequiredFields) (h : lookupKV d k = none) :
    InterviewPrep.InterviewProcess.from_dict d = none := by
  simp [InterviewPrep.interviewRequiredFields] at hk
  rcases hk with rfl | rfl | rfl | rfl | rfl | rfl | rfl <;>
  all_goals
    unfold InterviewPrep.InterviewProcess.from_dict
    split
    · simp_all
    · rfl

theorem InterviewProcess_from_dict_required (d : List (String × Json))
    (r : InterviewPrep.InterviewProcess)
    (h : InterviewPrep.InterviewProcess.from_dict d = some r) :
    ∀ k ∈ InterviewPrep.interviewRequiredFields, (lookupKV d k).isSome = true := by
  unfold InterviewPrep.InterviewProcess.from_dict at h
  split at h
  · intro k hk
    simp [InterviewPrep.interviewRequiredFields] at hk
    rcases hk with rfl | rfl | rfl | rfl | rfl | rfl | rfl <;> simp_all
  · cases h

/-- C7: for the strict record types, a parsed payload missing any required
field is a hard failure — `InterviewPrepManager.get_company_info` returns
the explicit no-data signal (`None`), and a successful result implies both
parsed payloads carried every required field (nothing was defaulted). -/
theorem c7_strict_records (rApi iApi : Option (String × List String)) :
    (∀ rc cites f k, rApi = some (rc, cites) → extract_json rc = some (Json.obj f) →
      k ∈ InterviewPrep.reviewRequiredFields → lookupKV f k = none →
      InterviewPrep.get_company_info rApi iApi = none) ∧
    (∀ ic icites g k, iApi = some (ic, icites) → extract_json ic = some (Json.obj g) →
      k ∈ InterviewPrep.interviewRequiredFields → lookupKV g k = none →
      InterviewPrep.get_company_info rApi iApi = none) ∧
    (∀ r, InterviewPrep.get_company_info rApi iApi = some r →
      (∃ rc cites f, rApi = some (rc, cites) ∧ extract_json rc = some (Json.obj f) ∧
        ∀ k ∈ InterviewPrep.reviewRequiredFields, (lookupKV f k).isSome = true) ∧
      (∃ ic icites g, iApi = some (ic, icites) ∧ extract_json ic = some (Json.obj g) ∧
        ∀ k ∈ InterviewPrep.interviewRequiredFields, (lookupKV g k).isSome = true)) := by
  refine ⟨?_, ?_, ?_⟩
  · rintro rc cites f k rfl hx hk hnone
    unfold InterviewPrep.get_company_info
    cases iApi with
    | none => rfl
    | some q =>
        obtain ⟨ic, icites⟩ := q
        have hnone2 : lookupKV (insertKV f "sources"
            (Json.arr (cites.map Json.str))) k = none := by
          rw [lookupKV_insertKV_ne _ _ _ _ (reviewRequired_ne_sources k hk)]
          exact hnone
        simp [hx, CompanyReview_from_dict_missing _ k hk hnone2]
  · rintro ic icites g k rfl hx hk hnone
    unfold InterviewPrep.get_company_info
    cases rApi with
    | none => rfl
    | some p =>
        obtain ⟨rc, cites⟩ := p
        cases hrx : extract_json rc with
        | none => simp [hrx]
        | some rv =>
            cases rv with
            | obj rf =>
                cases hfd : InterviewPrep.CompanyReview.from_dict
                    (insertKV rf "sources" (Json.arr (cites.map Json.str))) with
                | none => simp [hrx, hfd]
                | some review =>
                    have hnone2 : lookupKV (insertKV g "sources"
                        (Json.arr (icites.map Json.str))) k = none := by
                      rw [lookupKV_insertKV_ne _ _ _ _ (interviewRequired_ne_sources k hk)]
                      exact hnone
                    simp [hrx, hfd, hx,
                      InterviewProcess_from_dict_missing _ k hk hnone2]
            | null => simp [hrx]
            | bool b => simp [hrx]
            | num m e => simp [hrx]
            | str s => simp [hrx]
            | arr xs => simp [hrx]
  · intro r h
    cases rApi with
    | none => simp [InterviewPrep.get_company_info] at h
    | some p =>
        obtain ⟨rc, cites⟩ := p
        cases iApi with
        | none => simp [InterviewPrep.get_company_info] at h
        | some q =>
            obtain ⟨ic, icites⟩ := q
            simp only [InterviewPrep.get_company_info] at h
            cases hrx : extract_json rc with
            | none => simp [hrx] at h
            | some rv =>
                simp only [hrx] at h
                cases rv with
                | obj rf =>
                    cases hfd : InterviewPrep.CompanyReview.from_dict
                        (insertKV rf "sources" (Json.arr (cites.map Json.str))) with
                    | none => simp [hfd] at h
                    | some review =>
                        simp only [hfd] at h
                        cases hix : extract_json ic with
                        | none => simp [hix] at h
                        | some iv =>
                            simp only [hix] at h
                            cases iv with
                            | obj ig =>
                                cases hifd : InterviewPrep.InterviewProcess.from_dict
                                    (insertKV ig "sources"
                                      (Json.arr (icites.map Json.str))) with
                                | none => simp [hifd] at h
                                | some iproc =>
                                    refine ⟨⟨rc, cites, rf, rfl, hrx, ?_⟩,
                                            ⟨ic, icites, ig, rfl, hix, ?_⟩⟩
                                    · intro k hk
                                      have hp := CompanyReview_from_dict_required _ _ hfd k hk
                                      rwa [lookupKV_insertKV_ne _ _ _ _
                                        (reviewRequired_ne_sources k hk)] at hp
                                    · intro k hk
                                      have hp := InterviewProcess_from_dict_required _ _ hifd k hk
                                      rwa [lookupKV_insertKV_ne _ _ _ _
                                        (interviewRequired_ne_sources k hk)] at hp
                            | null => simp at h
                            | bool b => simp at h
                            | num m e => simp at h
                            | str s => simp at h
                            | arr xs => simp at h
                | null => simp at h
                | bool b => simp at h
                | num m e => simp at h
                | str s => simp at h
                | arr xs => simp at h

/-- Witness for C7: a review payload carrying only `overall_rating` makes
the whole operation return the no-data signal. -/
theorem c7_strict_records_witness :
    InterviewPrep.get_company_info
      (some ("\x7b\"overall_rating\": 4\x7d", [])) (some ("x", [])) = none :=
  (c7_strict_records (some ("\x7b\"overall_rating\": 4\x7d", [])) (some ("x", []))).1
    "\x7b\"overall_rating\": 4\x7d" [] [("overall_rating", Json.num 4 0)]
    "work_life_balance" rfl rfl (by simp [InterviewPrep.reviewRequiredFields]) rfl

/-- One metrics update shifts the stored average from `s/(n+1)` to
`(s+d)/(n+2)`: the running sum is divided by one more than the run
count. -/
theorem metricsStep_avg_shift (m : SearchMetrics) (k : Nat) (d s : Rat)
    (h : m.average_response_time = s / ((m.total_runs : Rat) + 1)) :
    (metricsStep m k d).average_response_time =
      (s + d) / ((m.total_runs : Rat) + 2) := by
  have hne : ((m.total_runs : Rat) + 1) ≠ 0 := by positivity
  simp only [metricsStep, h]
  push_cast
  rw [div_mul_cancel₀ _ hne]
  ring_nf

/-- The general invariant behind C1: starting from an average of
`s/(total_runs+1)`, any sequence of updates maintains the pattern — the
running sum of durations divided by one more than the run count. -/
theorem metricsStep_foldl_general :
    ∀ (pairs : List (Nat × Rat)) (m : SearchMetrics) (s : Rat),
      m.average_response_time = s / ((m.total_runs : Rat) + 1) →
      (pairs.foldl (fun acc p => metricsStep acc p.1 p.2) m).total_runs =
        m.total_runs + pairs.length ∧
      (pairs.foldl (fun acc p => metricsStep acc p.1 p.2) m).average_response_time =
        (s + (pairs.map Prod.snd).sum) / ((m.total_runs : Rat) + pairs.length + 1)
  | [], m, s, h => by simpa using h
  | (k, d) :: ps, m, s, h => by
      have hstep := metricsStep_avg_shift m k d s h
      have htot : (metricsStep m k d).total_runs = m.total_runs + 1 := rfl
      have hrec := metricsStep_foldl_general ps (metricsStep m k d) (s + d)
        (by rw [hstep, htot]; push_cast; ring_nf)
      refine ⟨?_, ?_⟩
      · simpa [htot, Nat.add_assoc, Nat.add_comm 1] using hrec.1
      · have h2 := hrec.2
        rw [htot] at h2
        simp only [List.foldl_cons, List.map_cons, List.sum_cons, List.length_cons]
        rw [h2]
        push_cast
        ring_nf

/-- After any N requests starting from zeroed metrics, the code stores
`average_response_time = (sum of durations) / (N + 1)` — off by one from
the arithmetic mean the claim (and the formula's evident intent)
specifies, for every N ≥ 1. -/
theorem metricsStep_foldl_offByOne (pairs : List (Nat × Rat)) :
    (pairs.foldl (fun acc p => metricsStep acc p.1 p.2) ⟨0, 0, 0, 0⟩).total_runs =
      pairs.length ∧
    (pairs.foldl (fun acc p => metricsStep acc p.1 p.2) ⟨0, 0, 0, 0⟩).average_response_time =
      (pairs.map Prod.snd).sum / ((pairs.length : Rat) + 1) := by
  have h := metricsStep_foldl_general pairs ⟨0, 0, 0, 0⟩ 0 (by simp)
  simpa using h

end JobPlatform